import Mathlib

/-
Shallow embedding of the aai-agent voice session stack:
  * the per-session turn orchestrator of src/src/aai_agent/fastapi.py
    (the session_ws WebSocket endpoint with its _cancel_task,
    _cancel_inflight, _handle_turn and _stt_listener coroutines),
  * the VoiceAgent chat engine of src/src/aai_agent/agent.py
    (chat, cancel, _invalidate_agent, _ensure_agent),
  * the session registry of src/src/aai_agent/manager.py
    (VoiceAgentManager over a cachetools TTLCache).

The asyncio code inside one session runs on a single event loop; each
handler below is the straight-line body of one source coroutine, so the
returned action trace lists the awaited operations in program order: an
action enters the trace exactly when the corresponding await in the
source has returned.  asyncio.gather awaits all of its arguments to
completion before returning, so the three branches of _cancel_inflight
are linearized in argument order; no theorem below depends on the order
inside that segment, only on the segment boundaries.
-/

/-- Identifier standing for one asyncio.Task handle. -/
abbrev TaskId := Nat

/-- JSON frames the server sends to the client over the session
WebSocket (the _send_json payloads of src/src/aai_agent/fastapi.py). -/
inductive ClientFrame where
  | transcriptMsg (text : String) (final : Bool)
  | turnMsg (text : String)
  | thinkingMsg
  | chatMsg (text : String) (steps : List String)
  | greetingMsg (text : String)
  | ttsDoneMsg
  | cancelledMsg
  | resetMsg
  | errorMsg (message : String)
  deriving DecidableEq, Repr

/-- Observable operations of the orchestrator coroutines.  An action is
recorded when the corresponding awaited call in the source has returned:

  * lockSnapshotClear ct tt — the critical section of _cancel_inflight:
    under task_lock, chat_task and tts_task were snapshotted into local
    variables (recorded here) and both handles were set to None;
  * cancelAwait t — _cancel_task on a live task t: task.cancel() followed
    by awaiting the task to completion, CancelledError and any other
    exception suppressed;
  * agentCancelAwait o — agent.cancel() was awaited; o is the in-flight
    chat task it cancelled and awaited, none when it was a no-op;
  * sendClient f — _send_json / frame delivery attempt to the client
    (exceptions are swallowed inside _send_json in the source);
  * sttClear — the operation-clear JSON frame was sent to the STT
    WebSocket (the send is wrapped in try/except in the source);
  * spawnChat text t — asyncio.create_task(_handle_turn(text)) produced
    the new chat task t;
  * lockSetChat t — under task_lock, chat_task was set to t. -/
inductive OrchAction where
  | lockSnapshotClear (chat tts : Option TaskId)
  | cancelAwait (t : TaskId)
  | agentCancelAwait (cancelled : Option TaskId)
  | sendClient (f : ClientFrame)
  | sttClear
  | spawnChat (text : String) (t : TaskId)
  | lockSetChat (t : TaskId)
  deriving DecidableEq, Repr

/-- Per-session orchestrator state: the chat_task and tts_task handles of
session_ws, the agent's _current_task (the task agent.cancel() would
cancel), and a supply of fresh task identifiers. -/
structure OrchState where
  chatTask : Option TaskId
  ttsTask : Option TaskId
  agentTask : Option TaskId
  nextTask : TaskId
  deriving DecidableEq, Repr

/-- Embedding of _cancel_task (src/src/aai_agent/fastapi.py): cancel a
task and suppress exceptions; a None or already-done task is left
alone. -/
def cancelTaskActs (ot : Option TaskId) (done : TaskId → Bool) : List OrchAction :=
  match ot with
  | none => []
  | some t => if done t then [] else [OrchAction.cancelAwait t]

/-- Embedding of VoiceAgent.cancel (src/src/aai_agent/agent.py): cancel
and await the agent's in-flight chat task if there is a live one,
suppressing exceptions, and clear _current_task; otherwise a no-op.
Returns the emitted action and the new _current_task value. -/
def agentCancel (ot : Option TaskId) (done : TaskId → Bool) :
    List OrchAction × Option TaskId :=
  match ot with
  | none => ([OrchAction.agentCancelAwait none], none)
  | some t =>
      if done t then ([OrchAction.agentCancelAwait none], some t)
      else ([OrchAction.agentCancelAwait (some t)], none)

/-- Embedding of _cancel_inflight (src/src/aai_agent/fastapi.py):
snapshot and null out chat_task and tts_task under task_lock, then,
outside the lock, asyncio.gather(_cancel_task(ct), _cancel_task(tt),
agent.cancel()), which awaits all three to completion before
returning. -/
def cancelInflight (st : OrchState) (done : TaskId → Bool) :
    OrchState × List OrchAction :=
  let ag := agentCancel st.agentTask done
  ({ st with chatTask := none, ttsTask := none, agentTask := ag.2 },
   OrchAction.lockSnapshotClear st.chatTask st.ttsTask
     :: (cancelTaskActs st.chatTask done ++ cancelTaskActs st.ttsTask done ++ ag.1))

/-- Python str.strip with no argument: remove leading and trailing
whitespace.  Modelled structurally over the character list so that it
evaluates inside the kernel. -/
def pyStrip (s : String) : String :=
  ⟨((s.data.dropWhile Char.isWhitespace).reverse.dropWhile
      Char.isWhitespace).reverse⟩

/-- Parsed STT provider events as read by _stt_listener: a Transcript
message carries transcript text and an is_final flag; a Turn message
carries transcript text (None coalesced to the empty string in the
source) and the turn_is_formatted flag; otherMsg stands for binary
frames, undecodable JSON and unknown types, all skipped. -/
inductive SttMsg where
  | transcriptEvt (text : String) (isFinal : Bool)
  | turnEvt (transcript : String) (formatted : Bool)
  | otherMsg
  deriving DecidableEq, Repr

/-- Embedding of one iteration of the _stt_listener loop
(src/src/aai_agent/fastapi.py): a Transcript event is forwarded to the
client; a Turn event is stripped, dropped when blank, surfaced as a
non-final transcript when
not formatted, and otherwise triggers _cancel_inflight followed by
spawning a fresh _handle_turn chat task whose handle is stored under
task_lock. -/
def handleSttMsg (st : OrchState) (done : TaskId → Bool) (m : SttMsg) :
    OrchState × List OrchAction :=
  match m with
  | SttMsg.transcriptEvt text isFinal =>
      (st, [OrchAction.sendClient (ClientFrame.transcriptMsg text isFinal)])
  | SttMsg.turnEvt raw formatted =>
      let text := pyStrip raw
      if text = "" then (st, [])
      else if formatted = false then
        (st, [OrchAction.sendClient (ClientFrame.transcriptMsg text false)])
      else
        let r := cancelInflight st done
        let tid := r.1.nextTask
        ({ r.1 with chatTask := some tid, nextTask := tid + 1 },
         r.2 ++ [OrchAction.spawnChat text tid, OrchAction.lockSetChat tid])
  | SttMsg.otherMsg => (st, [])

/-- Embedding of the cancel control-message branch of the session_ws
client loop (src/src/aai_agent/fastapi.py): _cancel_inflight, then the
operation-clear frame to the STT WebSocket when it is present (the send
is wrapped in try/except), then the cancelled frame to the client.
Every await inside is exception-suppressed in the source, so the handler
is total. -/
def handleCancelCmd (st : OrchState) (done : TaskId → Bool) (sttLive : Bool) :
    OrchState × List OrchAction :=
  let r := cancelInflight st done
  (r.1, r.2 ++ (if sttLive then [OrchAction.sttClear] else []) ++
          [OrchAction.sendClient ClientFrame.cancelledMsg])

/-- One record of the smolagents AgentMemory.steps list, as manipulated
by src/src/aai_agent/agent.py (TaskStep / ActionStep / PlanningStep). -/
inductive MemStep where
  | taskStep (task : String)
  | actionStep (content : String)
  | planningStep (plan : String)
  deriving DecidableEq, Repr

/-- A built smolagents MultiStepAgent; the only piece of its state the
claims touch is memory.steps. -/
structure MSAgent where
  memorySteps : List MemStep
  deriving DecidableEq, Repr

/-- The VoiceAgent fields relevant to chat (src/src/aai_agent/agent.py):
the built agent (self dot _agent) and the _saved_memory_steps slot used
by _invalidate_agent and _ensure_agent. -/
structure VAState where
  agent : Option MSAgent
  savedMemorySteps : Option (List MemStep)
  deriving DecidableEq, Repr

/-- Outcome of one worker-thread agent.run call, modelled from the
smolagents MultiStepAgent runtime as used by VoiceAgent.chat: run
appends a TaskStep for the new message to memory.steps and then appends
further steps as it executes.  appended are the steps the run added to
memory after the TaskStep before it finished, faulted, or was abandoned
(anyio run_sync with abandon_on_cancel leaves whatever the thread has
already written in memory); log is the thread-local _step_log collected
by _on_step.

  * finalAnswer: run returned normally with a final answer;
  * corruptionFault: run raised UnboundLocalError, the fault smolagents
    raises when the agent is interrupted or produces no final_answer;
  * cancelledMidRun: the awaiting task was cancelled and the worker
    thread abandoned mid-run. -/
inductive RunOutcome where
  | finalAnswer (answer : String) (appended : List MemStep) (log : List String)
  | corruptionFault (appended : List MemStep) (log : List String)
  | cancelledMidRun (appended : List MemStep)
  deriving DecidableEq, Repr

/-- How VoiceAgent.chat terminates: a returned VoiceResponse (text plus
steps), a re-raised asyncio.CancelledError, or the ValueError raised on
an empty message. -/
inductive ChatOutcome where
  | ok (text : String) (steps : List String)
  | raisedCancelled
  | raisedValueError
  deriving DecidableEq, Repr

/-- The fallback text VoiceAgent.chat returns when smolagents raises
UnboundLocalError (src/src/aai_agent/agent.py). -/
def interruptedFallback : String :=
  "Sorry, I got interrupted. Could you say that again?"

/-- Embedding of VoiceAgent._invalidate_agent: save the current agent's
memory.steps into _saved_memory_steps and null the agent so it is
rebuilt on next use. -/
def invalidateAgent (st : VAState) : VAState :=
  match st.agent with
  | some a => { agent := none, savedMemorySteps := some a.memorySteps }
  | none => { st with agent := none }

/-- Embedding of VoiceAgent._ensure_agent: return the built agent, or
build a fresh one (empty memory) and restore _saved_memory_steps into it
when present, clearing the slot. -/
def ensureAgent (st : VAState) : MSAgent × VAState :=
  match st.agent with
  | some a => (a, st)
  | none =>
      let a : MSAgent :=
        { memorySteps := match st.savedMemorySteps with
                         | some s => s
                         | none => [] }
      (a, { agent := some a, savedMemorySteps := none })

/-- Embedding of VoiceAgent.chat (src/src/aai_agent/agent.py).  The
message is stripped and an empty message raises ValueError; the agent is
ensured (rebuilding from saved memory when invalidated); the worker
thread runs agent.run(message, reset=reset), which first clears memory
when reset is set, then appends the TaskStep and the outcome's further
steps.  On a normal return the run's result text and the collected step
log are returned.  On UnboundLocalError the run function invalidates the
agent (saving the memory as mutated so far) and returns the interrupted
fallback with the collected steps — the call itself does not raise.  On
cancellation the except branch invalidates the agent (saving the memory
as mutated so far) and re-raises CancelledError. -/
def chatModel (st : VAState) (message : String) (reset : Bool)
    (outcome : RunOutcome) : VAState × ChatOutcome :=
  let msg := pyStrip message
  if msg = "" then (st, ChatOutcome.raisedValueError)
  else
    let er := ensureAgent st
    let base := if reset then [] else er.1.memorySteps
    match outcome with
    | RunOutcome.finalAnswer ans appended log =>
        ({ er.2 with
            agent := some { memorySteps := base ++ MemStep.taskStep msg :: appended } },
         ChatOutcome.ok ans log)
    | RunOutcome.corruptionFault appended log =>
        let stMid : VAState :=
          { er.2 with
              agent := some { memorySteps := base ++ MemStep.taskStep msg :: appended } }
        (invalidateAgent stMid, ChatOutcome.ok interruptedFallback log)
    | RunOutcome.cancelledMidRun appended =>
        let stMid : VAState :=
          { er.2 with
              agent := some { memorySteps := base ++ MemStep.taskStep msg :: appended } }
        (invalidateAgent stMid, ChatOutcome.raisedCancelled)

/-- The conversation history a VoiceAgent will expose to its next chat
call: the built agent's memory.steps, or, when the agent has been
invalidated, the _saved_memory_steps that _ensure_agent will restore
(empty when neither exists). -/
def conversationHistory (st : VAState) : List MemStep :=
  match st.agent with
  | some a => a.memorySteps
  | none =>
      match st.savedMemorySteps with
      | some s => s
      | none => []

/-- One entry of the VoiceAgentManager session map: the session id key,
the identity of the stored VoiceAgent object (fresh objects get fresh
identifiers), and the cachetools TTLCache link time of the last set,
which get_or_create refreshes on every hit.  Times are integers standing
for the monotonic timer. -/
structure SessionEntry where
  sid : String
  agentId : Nat
  lastAccess : Int
  deriving DecidableEq, Repr

/-- State of a VoiceAgentManager (src/src/aai_agent/manager.py): the
ttl_seconds setting, the backing map (a cachetools TTLCache when
ttl_seconds is positive, a plain dict otherwise — both modelled as an
association list with unique keys kept in set order), and the supply of
fresh VoiceAgent identities. -/
structure ManagerState where
  ttl : Int
  sessions : List SessionEntry
  nextId : Nat
  deriving DecidableEq, Repr

/-- Expiry test of the cachetools TTLCache as used by the manager: an
entry set at lastAccess has link.expires = lastAccess + ttl, and the
cache treats it as expired once the timer reaches expires, i.e. when
ttl is not less than now minus lastAccess.  In plain-dict mode
(ttl not positive) nothing ever expires. -/
def entryExpired (ttl now : Int) (e : SessionEntry) : Bool :=
  decide (0 < ttl) && decide (ttl ≤ now - e.lastAccess)

/-- TTLCache.expire: evict every expired entry; the identity in
plain-dict mode, where entryExpired is constantly false. -/
def expireSessions (st : ManagerState) (now : Int) : ManagerState :=
  { st with sessions := st.sessions.filter (fun e => !entryExpired st.ttl now e) }

/-- Key lookup in the backing map. -/
def lookupEntry (l : List SessionEntry) (sid : String) : Option SessionEntry :=
  l.find? (fun e => e.sid == sid)

/-- Removal of a key from the backing map. -/
def eraseSid (l : List SessionEntry) (sid : String) : List SessionEntry :=
  l.filter (fun e => !(e.sid == sid))

/-- The setitem step of the manager (sessions[session_id] = agent): a
TTLCache set first evicts expired entries, then stores the value with a
fresh expiry (link moved to the end of the expiry order); a plain-dict
set stores the value (entry position is irrelevant to every property
proved below). -/
def setEntry (st : ManagerState) (now : Int) (sid : String) (aid : Nat) :
    ManagerState :=
  { st with
      sessions :=
        eraseSid (expireSessions st now).sessions sid ++ [⟨sid, aid, now⟩] }

/-- The miss path of VoiceAgentManager.get_or_create: construct a fresh
VoiceAgent (a fresh identity) and store it under the id. -/
def createFresh (st : ManagerState) (now : Int) (sid : String) :
    Nat × ManagerState :=
  (st.nextId, { setEntry st now sid st.nextId with nextId := st.nextId + 1 })

/-- Embedding of VoiceAgentManager.get_or_create
(src/src/aai_agent/manager.py): under the lock, sessions.get(session_id)
returns the stored agent unless the entry is absent or expired (the
TTLCache treats an expired entry as missing without mutating); on a hit
the agent is re-set to refresh its TTL and returned; on a miss a fresh
VoiceAgent is constructed, stored and returned. -/
def getOrCreate (st : ManagerState) (now : Int) (sid : String) :
    Nat × ManagerState :=
  match lookupEntry st.sessions sid with
  | some e =>
      if entryExpired st.ttl now e then createFresh st now sid
      else (e.agentId, setEntry st now sid e.agentId)
  | none => createFresh st now sid

/-- Embedding of VoiceAgentManager.remove: sessions.pop(session_id,
None).  MutableMapping.pop first reads the key — an absent or expired
key yields the default without mutating the map — and only then deletes
it, so only a present, non-expired entry is erased.  Nothing else is
touched: in particular no VoiceAgent resource is closed. -/
def removeSession (st : ManagerState) (now : Int) (sid : String) :
    ManagerState :=
  match lookupEntry st.sessions sid with
  | some e =>
      if entryExpired st.ttl now e then st
      else { st with sessions := eraseSid st.sessions sid }
  | none => st

/-- Embedding of VoiceAgentManager.active_sessions: in TTLCache mode
call expire() (lazy eviction), then return the map's length; the expire
call is the identity in plain-dict mode, matching the isinstance guard
in the source. -/
def activeSessions (st : ManagerState) (now : Int) : Nat × ManagerState :=
  let st1 := expireSessions st now
  (st1.sessions.length, st1)

/-- A manager world that also tracks which VoiceAgent objects have had
their STT and TTS clients closed (VoiceAgent.aclose awaited on them),
so that resource-release behaviour is observable. -/
structure RegistryWorld where
  mgr : ManagerState
  sttClosed : List Nat
  ttsClosed : List Nat
  deriving DecidableEq, Repr

/-- get_or_create lifted to the world: constructing or returning an
agent closes nothing. -/
def getOrCreateWorld (w : RegistryWorld) (now : Int) (sid : String) :
    Nat × RegistryWorld :=
  let r := getOrCreate w.mgr now sid
  (r.1, { w with mgr := r.2 })

/-- VoiceAgentManager.remove lifted to the world: the source body is
only sessions.pop(session_id, None), so no aclose runs and the closed
sets are untouched. -/
def removeWorld (w : RegistryWorld) (now : Int) (sid : String) :
    RegistryWorld :=
  { w with mgr := removeSession w.mgr now sid }

/-- Modelled from the spec: the close-all operation.  The FastAPI
lifespan shutdown hook (src/src/aai_agent/fastapi.py) awaits
agent_manager.aclose_all(), but no such method exists in
src/src/aai_agent/manager.py; only its caller is in src.  Per the spec,
close_all closes every session's resources best-effort: it iterates the
sessions, awaits each agent's aclose — marking its STT and TTS clients
closed — catching and suppressing a failure of any individual close
(fails says whose close raises), and leaves the registry empty. -/
def acloseAllWorld (w : RegistryWorld) (fails : Nat → Bool) : RegistryWorld :=
  { mgr := { w.mgr with sessions := [] },
    sttClosed :=
      w.sttClosed ++
        ((w.mgr.sessions.map (fun e => e.agentId)).filter (fun a => !fails a)),
    ttsClosed :=
      w.ttsClosed ++
        ((w.mgr.sessions.map (fun e => e.agentId)).filter (fun a => !fails a)) }

/-- Well-formedness of a manager state, established at construction and
preserved by every operation: every stored agent identity is below the
fresh-identity counter, and stored identities are pairwise distinct
(each VoiceAgent object is stored under exactly one session id). -/
def WfMgr (st : ManagerState) : Prop :=
  (∀ e ∈ st.sessions, e.agentId < st.nextId) ∧
    (st.sessions.map (fun e => e.agentId)).Nodup

/-- An action belonging to the cancel-all-inflight barrier: a
cancel-and-await of a task, or the awaited agent cancellation hook. -/
def IsCancelOp (a : OrchAction) : Prop :=
  (∃ t, a = OrchAction.cancelAwait t) ∨ (∃ o, a = OrchAction.agentCancelAwait o)

lemma mem_cancelTaskActs_of (t : TaskId) (done : TaskId → Bool)
    (h : done t = false) :
    OrchAction.cancelAwait t ∈ cancelTaskActs (some t) done := by
  simp [cancelTaskActs, h]

lemma cancelTaskActs_shape (ot : Option TaskId) (done : TaskId → Bool) :
    ∀ a ∈ cancelTaskActs ot done, ∃ t, a = OrchAction.cancelAwait t := by
  cases ot with
  | none => simp [cancelTaskActs]
  | some t =>
      intro a ha
      by_cases h : done t
      · simp [cancelTaskActs, h] at ha
      · simp [cancelTaskActs, h] at ha
        exact ⟨t, ha⟩

lemma agentCancel_shape (ot : Option TaskId) (done : TaskId → Bool) :
    ∀ a ∈ (agentCancel ot done).1, ∃ o, a = OrchAction.agentCancelAwait o := by
  cases ot with
  | none => simp [agentCancel]
  | some t =>
      intro a ha
      by_cases h : done t
      · simp [agentCancel, h] at ha
        exact ⟨none, ha⟩
      · simp [agentCancel, h] at ha
        exact ⟨some t, ha⟩

lemma agentCancel_mem (ot : Option TaskId) (done : TaskId → Bool) :
    ∃ o, OrchAction.agentCancelAwait o ∈ (agentCancel ot done).1 := by
  cases ot with
  | none => exact ⟨none, by simp [agentCancel]⟩
  | some t =>
      by_cases h : done t
      · exact ⟨none, by simp [agentCancel, h]⟩
      · exact ⟨some t, by simp [agentCancel, h]⟩

lemma agentCancel_live (t : TaskId) (done : TaskId → Bool) (h : done t = false) :
    OrchAction.agentCancelAwait (some t) ∈ (agentCancel (some t) done).1 := by
  simp [agentCancel, h]

lemma cancelInflight_snd (st : OrchState) (done : TaskId → Bool) :
    (cancelInflight st done).2
      = OrchAction.lockSnapshotClear st.chatTask st.ttsTask
          :: (cancelTaskActs st.chatTask done ++ cancelTaskActs st.ttsTask done
                ++ (agentCancel st.agentTask done).1) := rfl

lemma cancelInflight_seg_shape (st : OrchState) (done : TaskId → Bool) :
    ∀ a ∈ cancelTaskActs st.chatTask done ++ cancelTaskActs st.ttsTask done
            ++ (agentCancel st.agentTask done).1, IsCancelOp a := by
  intro a ha
  rcases List.mem_append.1 ha with h1 | h2
  · rcases List.mem_append.1 h1 with h3 | h4
    · exact Or.inl (cancelTaskActs_shape _ _ a h3)
    · exact Or.inl (cancelTaskActs_shape _ _ a h4)
  · exact Or.inr (agentCancel_shape _ _ a h2)

/-- C10: an STT Turn event whose transcript is empty or whitespace-only
is ignored entirely by the orchestrator, even when marked formatted: it
triggers neither cancel-all-inflight nor a chat task, no frame is sent
to the client, and the session state is unchanged. -/
theorem blank_turn_ignored (st : OrchState) (done : TaskId → Bool)
    (raw : String) (formatted : Bool) (h : pyStrip raw = "") :
    handleSttMsg st done (SttMsg.turnEvt raw formatted) = (st, []) := by
  simp [handleSttMsg, h]

/-- Witness for blank_turn_ignored at a concrete whitespace-only
formatted Turn event arriving while a chat task, a tts task and an agent
task are all in flight. -/
theorem blank_turn_ignored_witness :
    pyStrip "  " = "" ∧
      handleSttMsg ⟨some 0, some 1, some 0, 2⟩ (fun _ => false)
          (SttMsg.turnEvt "  " true)
        = (⟨some 0, some 1, some 0, 2⟩, []) :=
  ⟨by decide, blank_turn_ignored _ _ _ _ (by decide)⟩

lemma handleSttMsg_formatted (st : OrchState) (done : TaskId → Bool)
    (raw : String) (hb : pyStrip raw ≠ "") :
    handleSttMsg st done (SttMsg.turnEvt raw true)
      = ({ (cancelInflight st done).1 with
             chatTask := some st.nextTask, nextTask := st.nextTask + 1 },
         (cancelInflight st done).2
           ++ [OrchAction.spawnChat (pyStrip raw) st.nextTask,
               OrchAction.lockSetChat st.nextTask]) := by
  simp only [handleSttMsg]
  rw [if_neg hb, if_neg (by simp : ¬(true = false))]
  rfl

/-- Counterexample to C7 as stated: a Turn event that is not marked
formatted but whose transcript is whitespace-only is not surfaced to the
client at all — the handler emits no frame whatsoever — contradicting
the claim that every unformatted Turn event is surfaced as a non-final
transcript update. -/
theorem unformatted_blank_turn_not_surfaced :
    (handleSttMsg ⟨some 0, some 1, some 0, 2⟩ (fun _ => false)
        (SttMsg.turnEvt "   " false)).2 = [] ∧
    OrchAction.sendClient (ClientFrame.transcriptMsg "   " false)
        ∉ (handleSttMsg ⟨some 0, some 1, some 0, 2⟩ (fun _ => false)
            (SttMsg.turnEvt "   " false)).2 ∧
    OrchAction.sendClient (ClientFrame.transcriptMsg "" false)
        ∉ (handleSttMsg ⟨some 0, some 1, some 0, 2⟩ (fun _ => false)
            (SttMsg.turnEvt "   " false)).2 := by
  refine ⟨by decide, ?_, ?_⟩ <;> · intro h; revert h; decide

/-- C7 (amended): an STT Turn event that is not marked formatted never
spawns a chat task; when its stripped transcript is nonempty it is
surfaced to the client as a single non-final transcript update and
nothing else (whitespace-only Turn events are ignored entirely); and
within the STT listener, only a formatted Turn event with a nonempty
stripped transcript spawns a chat task or triggers the
cancel-all-inflight barrier. -/
theorem unformatted_turn_transcript_only :
    (∀ (st : OrchState) (done : TaskId → Bool) (raw : String),
        pyStrip raw ≠ "" →
        handleSttMsg st done (SttMsg.turnEvt raw false)
          = (st, [OrchAction.sendClient
                    (ClientFrame.transcriptMsg (pyStrip raw) false)]))
  ∧ (∀ (st : OrchState) (done : TaskId → Bool) (raw s : String) (t : TaskId),
        OrchAction.spawnChat s t ∉
          (handleSttMsg st done (SttMsg.turnEvt raw false)).2)
  ∧ (∀ (st : OrchState) (done : TaskId → Bool) (m : SttMsg) (s : String)
        (t : TaskId),
        OrchAction.spawnChat s t ∈ (handleSttMsg st done m).2 →
          ∃ raw, m = SttMsg.turnEvt raw true ∧ pyStrip raw ≠ "" ∧
            s = pyStrip raw)
  ∧ (∀ (st : OrchState) (done : TaskId → Bool) (m : SttMsg)
        (ct tt : Option TaskId),
        OrchAction.lockSnapshotClear ct tt ∈ (handleSttMsg st done m).2 →
          ∃ raw, m = SttMsg.turnEvt raw true ∧ pyStrip raw ≠ "") := by
  refine ⟨?_, ?_, ?_, ?_⟩
  · intro st done raw h
    simp [handleSttMsg, h]
  · intro st done raw s t
    by_cases h : pyStrip raw = "" <;> simp [handleSttMsg, h]
  · intro st done m s t hmem
    cases m with
    | transcriptEvt text isFinal => simp [handleSttMsg] at hmem
    | otherMsg => simp [handleSttMsg] at hmem
    | turnEvt raw formatted =>
        by_cases hb : pyStrip raw = ""
        · simp [handleSttMsg, hb] at hmem
        · cases formatted with
          | false => simp [handleSttMsg, hb] at hmem
          | true =>
              refine ⟨raw, rfl, hb, ?_⟩
              rw [handleSttMsg_formatted st done raw hb] at hmem
              rcases List.mem_append.1 hmem with h1 | h2
              · rw [cancelInflight_snd] at h1
                rcases List.mem_cons.1 h1 with h3 | h4
                · exact absurd h3 (by simp)
                · rcases cancelInflight_seg_shape st done _ h4 with ⟨u, hu⟩ | ⟨o, ho⟩
                  · exact absurd hu (by simp)
                  · exact absurd ho (by simp)
              · rcases List.mem_cons.1 h2 with h3 | h4
                · simp only [OrchAction.spawnChat.injEq] at h3
                  exact h3.1
                · simp at h4
  · intro st done m ct tt hmem
    cases m with
    | transcriptEvt text isFinal => simp [handleSttMsg] at hmem
    | otherMsg => simp [handleSttMsg] at hmem
    | turnEvt raw formatted =>
        by_cases hb : pyStrip raw = ""
        · simp [handleSttMsg, hb] at hmem
        · cases formatted with
          | false => simp [handleSttMsg, hb] at hmem
          | true => exact ⟨raw, rfl, hb⟩

/-- Witness for unformatted_turn_transcript_only: a concrete nonempty
unformatted Turn is surfaced as exactly one non-final transcript
update. -/
theorem unformatted_turn_transcript_only_witness :
    handleSttMsg ⟨some 0, some 1, some 0, 2⟩ (fun _ => false)
        (SttMsg.turnEvt " hi " false)
      = (⟨some 0, some 1, some 0, 2⟩,
         [OrchAction.sendClient
            (ClientFrame.transcriptMsg (pyStrip " hi ") false)]) :=
  unformatted_turn_transcript_only.1 _ _ _ (by decide)

/-- C1: when a formatted, nonempty FinalTurn is accepted, the STT
listener first runs the full cancel-all-inflight barrier and only then
spawns the new chat task: the trace starts with the under-lock snapshot
and nulling of the previous chat and tts handles, followed by a segment
consisting solely of completed cancel-and-await operations — covering
the previous live chat task, the previous live tts task, and the
Agent's own awaited cancellation hook — and the spawn of the new chat
task (stored as the new handle) comes strictly after that whole
segment. -/
theorem formatted_turn_cancel_before_spawn
    (st : OrchState) (done : TaskId → Bool) (raw : String)
    (h : pyStrip raw ≠ "") :
    ∃ seg : List OrchAction,
      (handleSttMsg st done (SttMsg.turnEvt raw true)).2
        = OrchAction.lockSnapshotClear st.chatTask st.ttsTask
            :: (seg ++ [OrchAction.spawnChat (pyStrip raw) st.nextTask,
                        OrchAction.lockSetChat st.nextTask])
      ∧ (∀ a ∈ seg, IsCancelOp a)
      ∧ (∀ t, st.chatTask = some t → done t = false →
            OrchAction.cancelAwait t ∈ seg)
      ∧ (∀ t, st.ttsTask = some t → done t = false →
            OrchAction.cancelAwait t ∈ seg)
      ∧ (∃ o, OrchAction.agentCancelAwait o ∈ seg)
      ∧ (∀ t, st.agentTask = some t → done t = false →
            OrchAction.agentCancelAwait (some t) ∈ seg)
      ∧ (handleSttMsg st done (SttMsg.turnEvt raw true)).1.chatTask
          = some st.nextTask := by
  refine ⟨cancelTaskActs st.chatTask done ++ cancelTaskActs st.ttsTask done
            ++ (agentCancel st.agentTask done).1, ?_, ?_, ?_, ?_, ?_, ?_, ?_⟩
  · rw [handleSttMsg_formatted st done raw h, cancelInflight_snd]
    rfl
  · exact cancelInflight_seg_shape st done
  · intro t ht hd
    rw [ht]
    exact List.mem_append_left _
      (List.mem_append_left _ (mem_cancelTaskActs_of t done hd))
  · intro t ht hd
    rw [ht]
    exact List.mem_append_left _
      (List.mem_append_right _ (mem_cancelTaskActs_of t done hd))
  · obtain ⟨o, ho⟩ := agentCancel_mem st.agentTask done
    exact ⟨o, List.mem_append_right _ ho⟩
  · intro t ht hd
    rw [ht]
    exact List.mem_append_right _ (agentCancel_live t done hd)
  · rw [handleSttMsg_formatted st done raw h]

/-- Witness for formatted_turn_cancel_before_spawn: a concrete formatted
turn arriving while chat task 0, tts task 1 and the agent's task 0 are
all live. -/
theorem formatted_turn_cancel_before_spawn_witness :
    ∃ seg : List OrchAction,
      (handleSttMsg ⟨some 0, some 1, some 0, 2⟩ (fun _ => false)
          (SttMsg.turnEvt "Hi" true)).2
        = OrchAction.lockSnapshotClear (some 0) (some 1)
            :: (seg ++ [OrchAction.spawnChat (pyStrip "Hi") 2,
                        OrchAction.lockSetChat 2])
      ∧ (∀ a ∈ seg, IsCancelOp a)
      ∧ (∀ t, (some 0 : Option TaskId) = some t →
            (fun (_ : TaskId) => false) t = false →
            OrchAction.cancelAwait t ∈ seg)
      ∧ (∀ t, (some 1 : Option TaskId) = some t →
            (fun (_ : TaskId) => false) t = false →
            OrchAction.cancelAwait t ∈ seg)
      ∧ (∃ o, OrchAction.agentCancelAwait o ∈ seg)
      ∧ (∀ t, (some 0 : Option TaskId) = some t →
            (fun (_ : TaskId) => false) t = false →
            OrchAction.agentCancelAwait (some t) ∈ seg)
      ∧ (handleSttMsg ⟨some 0, some 1, some 0, 2⟩ (fun _ => false)
            (SttMsg.turnEvt "Hi" true)).1.chatTask = some 2 :=
  formatted_turn_cancel_before_spawn ⟨some 0, some 1, some 0, 2⟩
    (fun _ => false) "Hi" (by decide)

/-- C8: a cancel control message is handled safely in every state: the
handler always completes with the cancelled frame as its final client
send, the clear-buffer operation is sent to the STT connection whenever
it is present, every live in-flight task (chat, tts, and the agent's
hook) is cancelled and awaited; and when the session is Idle — no chat,
tts or agent task in flight — the cancellation part is a no-op (nothing
is cancelled and the state is unchanged) yet the cancelled frame is
still emitted. -/
theorem cancel_cmd_safe (st : OrchState) (done : TaskId → Bool)
    (sttLive : Bool) :
    ((handleCancelCmd st done sttLive).2.getLast?
        = some (OrchAction.sendClient ClientFrame.cancelledMsg))
  ∧ (sttLive = true →
        OrchAction.sttClear ∈ (handleCancelCmd st done sttLive).2)
  ∧ (∀ t, st.chatTask = some t → done t = false →
        OrchAction.cancelAwait t ∈ (handleCancelCmd st done sttLive).2)
  ∧ (∀ t, st.ttsTask = some t → done t = false →
        OrchAction.cancelAwait t ∈ (handleCancelCmd st done sttLive).2)
  ∧ (∀ t, st.agentTask = some t → done t = false →
        OrchAction.agentCancelAwait (some t)
          ∈ (handleCancelCmd st done sttLive).2)
  ∧ (st.chatTask = none → st.ttsTask = none → st.agentTask = none →
        ((handleCancelCmd st done sttLive).1 = st ∧
         (∀ t, OrchAction.cancelAwait t
                 ∉ (handleCancelCmd st done sttLive).2) ∧
         (∀ t, OrchAction.agentCancelAwait (some t)
                 ∉ (handleCancelCmd st done sttLive).2))) := by
  have hsnd : (handleCancelCmd st done sttLive).2
      = ((cancelInflight st done).2
            ++ (if sttLive = true then [OrchAction.sttClear] else []))
          ++ [OrchAction.sendClient ClientFrame.cancelledMsg] := rfl
  refine ⟨?_, ?_, ?_, ?_, ?_, ?_⟩
  · rw [hsnd, List.getLast?_concat]
  · intro hs
    rw [hsnd, hs]
    exact List.mem_append_left _ (List.mem_append_right _ (by simp))
  · intro t ht hd
    rw [hsnd, cancelInflight_snd]
    refine List.mem_append_left _
      (List.mem_append_left _ (List.mem_cons_of_mem _ ?_))
    rw [ht]
    exact List.mem_append_left _
      (List.mem_append_left _ (mem_cancelTaskActs_of t done hd))
  · intro t ht hd
    rw [hsnd, cancelInflight_snd]
    refine List.mem_append_left _
      (List.mem_append_left _ (List.mem_cons_of_mem _ ?_))
    rw [ht]
    exact List.mem_append_left _
      (List.mem_append_right _ (mem_cancelTaskActs_of t done hd))
  · intro t ht hd
    rw [hsnd, cancelInflight_snd]
    refine List.mem_append_left _
      (List.mem_append_left _ (List.mem_cons_of_mem _ ?_))
    rw [ht]
    exact List.mem_append_right _ (agentCancel_live t done hd)
  · intro h1 h2 h3
    obtain ⟨ct, tt, agt, n⟩ := st
    simp only at h1 h2 h3
    subst h1; subst h2; subst h3
    by_cases hs : sttLive <;>
      simp [handleCancelCmd, cancelInflight, agentCancel, cancelTaskActs, hs]

/-- Witness for cancel_cmd_safe at a concrete Idle state with a live STT
connection: nothing is cancelled, the state is unchanged, and the
cancelled frame is still the final send. -/
theorem cancel_cmd_safe_witness :
    ((handleCancelCmd ⟨none, none, none, 5⟩ (fun _ => false) true).2.getLast?
        = some (OrchAction.sendClient ClientFrame.cancelledMsg))
  ∧ (true = true →
        OrchAction.sttClear
          ∈ (handleCancelCmd ⟨none, none, none, 5⟩ (fun _ => false) true).2)
  ∧ (∀ t, (none : Option TaskId) = some t →
        (fun (_ : TaskId) => false) t = false →
        OrchAction.cancelAwait t
          ∈ (handleCancelCmd ⟨none, none, none, 5⟩ (fun _ => false) true).2)
  ∧ (∀ t, (none : Option TaskId) = some t →
        (fun (_ : TaskId) => false) t = false →
        OrchAction.cancelAwait t
          ∈ (handleCancelCmd ⟨none, none, none, 5⟩ (fun _ => false) true).2)
  ∧ (∀ t, (none : Option TaskId) = some t →
        (fun (_ : TaskId) => false) t = false →
        OrchAction.agentCancelAwait (some t)
          ∈ (handleCancelCmd ⟨none, none, none, 5⟩ (fun _ => false) true).2)
  ∧ ((none : Option TaskId) = none → (none : Option TaskId) = none →
        (none : Option TaskId) = none →
        ((handleCancelCmd ⟨none, none, none, 5⟩ (fun _ => false) true).1
            = ⟨none, none, none, 5⟩ ∧
         (∀ t, OrchAction.cancelAwait t
                 ∉ (handleCancelCmd ⟨none, none, none, 5⟩
                      (fun _ => false) true).2) ∧
         (∀ t, OrchAction.agentCancelAwait (some t)
                 ∉ (handleCancelCmd ⟨none, none, none, 5⟩
                      (fun _ => false) true).2))) :=
  cancel_cmd_safe ⟨none, none, none, 5⟩ (fun _ => false) true

/-- Counterexample to C6 as stated: a chat call cancelled mid-flight
does not leave the conversation history equal to its pre-call state.
Starting from an agent with empty history, a call with message hi that
is cancelled right after the run appended its TaskStep leaves the task
entry in the history that the next call will observe, so the history
afterwards differs in length and content from the empty pre-call
history. -/
theorem cancelled_chat_history_not_restored :
    conversationHistory
        (chatModel ⟨some ⟨[]⟩, none⟩ "hi" false
          (RunOutcome.cancelledMidRun [])).1
      = [MemStep.taskStep "hi"]
    ∧ conversationHistory
        (chatModel ⟨some ⟨[]⟩, none⟩ "hi" false
          (RunOutcome.cancelledMidRun [])).1
      ≠ conversationHistory ⟨some ⟨[]⟩, none⟩ := by
  refine ⟨by decide, by decide⟩

/-- C6 (amended): if a chat call is cancelled mid-flight, the reasoning
engine is invalidated and CancelledError is re-raised, and the
conversation history as accumulated at the moment of cancellation — the
pre-call history plus the cancelled call's task entry and whatever steps
the run had already appended — is saved and restored into the engine
rebuilt on next use; the history is not rolled back to its pre-call
state. -/
theorem cancelled_chat_keeps_accumulated_history
    (mem : List MemStep) (msg : String) (appended : List MemStep)
    (h : pyStrip msg ≠ "") :
    chatModel ⟨some ⟨mem⟩, none⟩ msg false
        (RunOutcome.cancelledMidRun appended)
      = (⟨none, some (mem ++ MemStep.taskStep (pyStrip msg) :: appended)⟩,
         ChatOutcome.raisedCancelled)
    ∧ conversationHistory
        (chatModel ⟨some ⟨mem⟩, none⟩ msg false
          (RunOutcome.cancelledMidRun appended)).1
        = mem ++ MemStep.taskStep (pyStrip msg) :: appended
    ∧ (ensureAgent
        (chatModel ⟨some ⟨mem⟩, none⟩ msg false
          (RunOutcome.cancelledMidRun appended)).1).1.memorySteps
        = mem ++ MemStep.taskStep (pyStrip msg) :: appended := by
  have h1 : chatModel ⟨some ⟨mem⟩, none⟩ msg false
      (RunOutcome.cancelledMidRun appended)
      = (⟨none, some (mem ++ MemStep.taskStep (pyStrip msg) :: appended)⟩,
         ChatOutcome.raisedCancelled) := by
    simp [chatModel, h, ensureAgent, invalidateAgent]
  exact ⟨h1, by rw [h1]; rfl, by rw [h1]; rfl⟩

/-- Witness for cancelled_chat_keeps_accumulated_history: a cancellation
arriving after one action step was already appended. -/
theorem cancelled_chat_keeps_accumulated_history_witness :
    chatModel ⟨some ⟨[MemStep.taskStep "earlier"]⟩, none⟩ "again" false
        (RunOutcome.cancelledMidRun [MemStep.actionStep "Using tool"])
      = (⟨none, some ([MemStep.taskStep "earlier"]
            ++ MemStep.taskStep (pyStrip "again")
                :: [MemStep.actionStep "Using tool"])⟩,
         ChatOutcome.raisedCancelled)
    ∧ conversationHistory
        (chatModel ⟨some ⟨[MemStep.taskStep "earlier"]⟩, none⟩ "again" false
          (RunOutcome.cancelledMidRun [MemStep.actionStep "Using tool"])).1
        = [MemStep.taskStep "earlier"]
            ++ MemStep.taskStep (pyStrip "again")
                :: [MemStep.actionStep "Using tool"]
    ∧ (ensureAgent
        (chatModel ⟨some ⟨[MemStep.taskStep "earlier"]⟩, none⟩ "again" false
          (RunOutcome.cancelledMidRun [MemStep.actionStep "Using tool"])).1).1.memorySteps
        = [MemStep.taskStep "earlier"]
            ++ MemStep.taskStep (pyStrip "again")
                :: [MemStep.actionStep "Using tool"] :=
  cancelled_chat_keeps_accumulated_history _ _ _ (by decide)

/-- C9: when the agent runtime raises its internal-corruption fault
(UnboundLocalError, triggered by interruption) during a chat call, the
call does not raise: it returns the graceful interrupted fallback text
together with the steps collected so far; the reasoning engine is
invalidated with the conversation history accumulated so far saved, and
the engine rebuilt on next use carries exactly that history. -/
theorem corruption_fault_graceful
    (mem : List MemStep) (msg : String) (appended : List MemStep)
    (log : List String) (h : pyStrip msg ≠ "") :
    chatModel ⟨some ⟨mem⟩, none⟩ msg false
        (RunOutcome.corruptionFault appended log)
      = (⟨none, some (mem ++ MemStep.taskStep (pyStrip msg) :: appended)⟩,
         ChatOutcome.ok interruptedFallback log)
    ∧ (ensureAgent
        (chatModel ⟨some ⟨mem⟩, none⟩ msg false
          (RunOutcome.corruptionFault appended log)).1).1.memorySteps
        = mem ++ MemStep.taskStep (pyStrip msg) :: appended
    ∧ interruptedFallback
        = "Sorry, I got interrupted. Could you say that again?" := by
  have h1 : chatModel ⟨some ⟨mem⟩, none⟩ msg false
      (RunOutcome.corruptionFault appended log)
      = (⟨none, some (mem ++ MemStep.taskStep (pyStrip msg) :: appended)⟩,
         ChatOutcome.ok interruptedFallback log) := by
    simp [chatModel, h, ensureAgent, invalidateAgent]
  exact ⟨h1, by rw [h1]; rfl, rfl⟩

/-- Witness for corruption_fault_graceful: a fault after one collected
step, starting from a one-entry history. -/
theorem corruption_fault_graceful_witness :
    chatModel ⟨some ⟨[MemStep.taskStep "earlier"]⟩, none⟩ "query" false
        (RunOutcome.corruptionFault [MemStep.actionStep "thinking"]
          ["Using duckduckgo_search"])
      = (⟨none, some ([MemStep.taskStep "earlier"]
            ++ MemStep.taskStep (pyStrip "query")
                :: [MemStep.actionStep "thinking"])⟩,
         ChatOutcome.ok interruptedFallback ["Using duckduckgo_search"])
    ∧ (ensureAgent
        (chatModel ⟨some ⟨[MemStep.taskStep "earlier"]⟩, none⟩ "query" false
          (RunOutcome.corruptionFault [MemStep.actionStep "thinking"]
            ["Using duckduckgo_search"])).1).1.memorySteps
        = [MemStep.taskStep "earlier"]
            ++ MemStep.taskStep (pyStrip "query")
                :: [MemStep.actionStep "thinking"]
    ∧ interruptedFallback
        = "Sorry, I got interrupted. Could you say that again?" :=
  corruption_fault_graceful _ _ _ _ (by decide)

lemma mem_of_lookupEntry {l : List SessionEntry} {sid : String}
    {e : SessionEntry} (h : lookupEntry l sid = some e) : e ∈ l :=
  List.mem_of_find?_eq_some h

lemma sid_of_lookupEntry {l : List SessionEntry} {sid : String}
    {e : SessionEntry} (h : lookupEntry l sid = some e) : e.sid = sid := by
  have h2 := List.find?_some h
  simpa using h2

lemma eraseSid_not_sid {l : List SessionEntry} {sid : String} :
    ∀ x ∈ eraseSid l sid, (x.sid == sid) = false := by
  intro x hx
  have h2 := (List.mem_filter.1 hx).2
  simpa using h2

lemma mem_eraseSid {l : List SessionEntry} {sid : String} {x : SessionEntry}
    (hx : x ∈ eraseSid l sid) : x ∈ l :=
  (List.mem_filter.1 hx).1

lemma eraseSid_sublist (l : List SessionEntry) (sid : String) :
    (eraseSid l sid).Sublist l :=
  List.filter_sublist _

lemma expire_sublist (st : ManagerState) (now : Int) :
    ((expireSessions st now).sessions).Sublist st.sessions :=
  List.filter_sublist _

lemma mem_expire {st : ManagerState} {now : Int} {x : SessionEntry}
    (hx : x ∈ (expireSessions st now).sessions) : x ∈ st.sessions :=
  (List.mem_filter.1 hx).1

lemma lookup_append_of_all_ne (l2 : List SessionEntry) (sid : String)
    (aid : Nat) (t : Int) (h : ∀ x ∈ l2, (x.sid == sid) = false) :
    lookupEntry (l2 ++ [⟨sid, aid, t⟩]) sid = some ⟨sid, aid, t⟩ := by
  induction l2 with
  | nil => simp [lookupEntry, List.find?]
  | cons e l ih =>
      have he := h e (List.mem_cons_self e l)
      rw [lookupEntry, List.cons_append, List.find?_cons_of_neg _ (by simp [he])]
      exact ih (fun x hx => h x (List.mem_cons_of_mem _ hx))

lemma lookup_eraseSid_self (l : List SessionEntry) (sid : String) :
    lookupEntry (eraseSid l sid) sid = none := by
  rw [lookupEntry, List.find?_eq_none]
  intro x hx
  simp [eraseSid_not_sid x hx]

lemma lookup_setEntry (st : ManagerState) (now : Int) (sid : String)
    (aid : Nat) :
    lookupEntry (setEntry st now sid aid).sessions sid = some ⟨sid, aid, now⟩ :=
  lookup_append_of_all_ne _ _ _ _ (fun x hx => eraseSid_not_sid x hx)

lemma setEntry_sessions (st : ManagerState) (now : Int) (sid : String)
    (aid : Nat) :
    (setEntry st now sid aid).sessions
      = eraseSid (expireSessions st now).sessions sid ++ [⟨sid, aid, now⟩] := rfl

lemma entryExpired_false_of (ttl now last : Int) (sid : String) (aid : Nat)
    (h : ttl ≤ 0 ∨ now - last < ttl) :
    entryExpired ttl now ⟨sid, aid, last⟩ = false := by
  rcases h with h | h
  · have h2 : decide (0 < ttl) = false := by simpa using (by omega : ¬ 0 < ttl)
    simp [entryExpired, h2]
  · have h2 : decide (ttl ≤ now - last) = false := by
      simpa using (by omega : ¬ ttl ≤ now - last)
    simp [entryExpired, h2]

lemma entryExpired_mono (ttl now now2 : Int) (e : SessionEntry)
    (h : entryExpired ttl now e = true) (hle : now ≤ now2) :
    entryExpired ttl now2 e = true := by
  simp only [entryExpired, Bool.and_eq_true, decide_eq_true_eq] at h ⊢
  exact ⟨h.1, by omega⟩

lemma getOrCreate_miss (st : ManagerState) (now : Int) (sid : String)
    (h : lookupEntry st.sessions sid = none) :
    getOrCreate st now sid = createFresh st now sid := by
  rw [getOrCreate, h]

lemma getOrCreate_hit (st : ManagerState) (now : Int) (sid : String)
    (e : SessionEntry) (h : lookupEntry st.sessions sid = some e)
    (hx : entryExpired st.ttl now e = false) :
    getOrCreate st now sid = (e.agentId, setEntry st now sid e.agentId) := by
  rw [getOrCreate, h]
  simp [hx]

lemma getOrCreate_expired (st : ManagerState) (now : Int) (sid : String)
    (e : SessionEntry) (h : lookupEntry st.sessions sid = some e)
    (hx : entryExpired st.ttl now e = true) :
    getOrCreate st now sid = createFresh st now sid := by
  rw [getOrCreate, h]
  simp [hx]

lemma createFresh_eq (st : ManagerState) (now : Int) (sid : String) :
    createFresh st now sid
      = (st.nextId,
         { ttl := st.ttl,
           sessions := eraseSid (expireSessions st now).sessions sid
               ++ [⟨sid, st.nextId, now⟩],
           nextId := st.nextId + 1 }) := rfl

lemma setEntry_eq (st : ManagerState) (now : Int) (sid : String) (aid : Nat) :
    setEntry st now sid aid
      = { ttl := st.ttl,
          sessions := eraseSid (expireSessions st now).sessions sid
              ++ [⟨sid, aid, now⟩],
          nextId := st.nextId } := rfl

lemma idsLt_base (st : ManagerState) (now : Int) (sid : String)
    (hwf : WfMgr st) :
    ∀ x ∈ eraseSid (expireSessions st now).sessions sid,
      x.agentId < st.nextId :=
  fun x hx => hwf.1 x (mem_expire (mem_eraseSid hx))

lemma idsNodup_base (st : ManagerState) (now : Int) (sid : String)
    (hwf : WfMgr st) :
    ((eraseSid (expireSessions st now).sessions sid).map
        (fun e => e.agentId)).Nodup := by
  have hs : (eraseSid (expireSessions st now).sessions sid).Sublist
      st.sessions :=
    (eraseSid_sublist _ _).trans (expire_sublist st now)
  exact hwf.2.sublist (hs.map _)

lemma not_mem_ids_base_fresh (st : ManagerState) (now : Int) (sid : String)
    (hwf : WfMgr st) :
    st.nextId ∉ (eraseSid (expireSessions st now).sessions sid).map
        (fun e => e.agentId) := by
  intro hmem
  rcases List.mem_map.1 hmem with ⟨x, hx, hfx⟩
  have h2 := idsLt_base st now sid hwf x hx
  omega

lemma not_mem_ids_base_hit (st : ManagerState) (now : Int) (sid : String)
    (e : SessionEntry) (hwf : WfMgr st)
    (he : lookupEntry st.sessions sid = some e) :
    e.agentId ∉ (eraseSid (expireSessions st now).sessions sid).map
        (fun x => x.agentId) := by
  intro hmem
  rcases List.mem_map.1 hmem with ⟨x, hx, hfx⟩
  have hxmem : x ∈ st.sessions := mem_expire (mem_eraseSid hx)
  have hxsid : (x.sid == sid) = false := eraseSid_not_sid x hx
  have hesid : e.sid = sid := sid_of_lookupEntry he
  have hemem : e ∈ st.sessions := mem_of_lookupEntry he
  have hxe : x = e := List.inj_on_of_nodup_map hwf.2 hxmem hemem hfx
  rw [hxe, hesid] at hxsid
  simp at hxsid

lemma nodup_concat_ids (A : List SessionEntry) (en : SessionEntry)
    (hA : (A.map (fun e => e.agentId)).Nodup)
    (hna : en.agentId ∉ A.map (fun e => e.agentId)) :
    ((A ++ [en]).map (fun e => e.agentId)).Nodup := by
  rw [List.map_append]
  refine hA.append (List.nodup_singleton _) ?_
  intro a ha1 ha2
  simp only [List.map_cons, List.map_nil, List.mem_singleton] at ha2
  rw [ha2] at ha1
  exact hna ha1

lemma wf_createFresh (st : ManagerState) (now : Int) (sid : String)
    (hwf : WfMgr st) : WfMgr (createFresh st now sid).2 := by
  show WfMgr
    { ttl := st.ttl,
      sessions := eraseSid (expireSessions st now).sessions sid
          ++ [⟨sid, st.nextId, now⟩],
      nextId := st.nextId + 1 }
  constructor
  · intro x hx
    rcases List.mem_append.1 hx with h1 | h2
    · have h3 := idsLt_base st now sid hwf x h1
      show x.agentId < st.nextId + 1
      omega
    · simp only [List.mem_singleton] at h2
      rw [h2]
      show st.nextId < st.nextId + 1
      omega
  · exact nodup_concat_ids _ _ (idsNodup_base st now sid hwf)
      (not_mem_ids_base_fresh st now sid hwf)

lemma wf_setEntry_hit (st : ManagerState) (now : Int) (sid : String)
    (e : SessionEntry) (hwf : WfMgr st)
    (he : lookupEntry st.sessions sid = some e) :
    WfMgr (setEntry st now sid e.agentId) := by
  rw [setEntry_eq]
  constructor
  · intro x hx
    rcases List.mem_append.1 hx with h1 | h2
    · exact idsLt_base st now sid hwf x h1
    · simp only [List.mem_singleton] at h2
      rw [h2]
      exact hwf.1 e (mem_of_lookupEntry he)
  · exact nodup_concat_ids _ _ (idsNodup_base st now sid hwf)
      (not_mem_ids_base_hit st now sid e hwf he)

lemma wf_getOrCreate (st : ManagerState) (now : Int) (sid : String)
    (hwf : WfMgr st) : WfMgr (getOrCreate st now sid).2 := by
  cases hl : lookupEntry st.sessions sid with
  | none =>
      rw [getOrCreate_miss st now sid hl]
      exact wf_createFresh st now sid hwf
  | some e =>
      by_cases hx : entryExpired st.ttl now e
      · rw [getOrCreate_expired st now sid e hl hx]
        exact wf_createFresh st now sid hwf
      · rw [getOrCreate_hit st now sid e hl (by simpa using hx)]
        exact wf_setEntry_hit st now sid e hwf hl

lemma lookup_getOrCreate (st : ManagerState) (now : Int) (sid : String) :
    lookupEntry (getOrCreate st now sid).2.sessions sid
      = some ⟨sid, (getOrCreate st now sid).1, now⟩ := by
  cases hl : lookupEntry st.sessions sid with
  | none =>
      rw [getOrCreate_miss st now sid hl]
      exact lookup_setEntry st now sid st.nextId
  | some e =>
      by_cases hx : entryExpired st.ttl now e
      · rw [getOrCreate_expired st now sid e hl hx]
        exact lookup_setEntry st now sid st.nextId
      · rw [getOrCreate_hit st now sid e hl (by simpa using hx)]
        exact lookup_setEntry st now sid e.agentId

lemma getOrCreate_ttl (st : ManagerState) (now : Int) (sid : String) :
    (getOrCreate st now sid).2.ttl = st.ttl := by
  cases hl : lookupEntry st.sessions sid with
  | none => rw [getOrCreate_miss st now sid hl]; rfl
  | some e =>
      by_cases hx : entryExpired st.ttl now e
      · rw [getOrCreate_expired st now sid e hl hx]; rfl
      · rw [getOrCreate_hit st now sid e hl (by simpa using hx)]; rfl

lemma getOrCreate_fst_lt (st : ManagerState) (now : Int) (sid : String)
    (hwf : WfMgr st) :
    (getOrCreate st now sid).1 < (getOrCreate st now sid).2.nextId := by
  have hwf2 := wf_getOrCreate st now sid hwf
  have hm := mem_of_lookupEntry (lookup_getOrCreate st now sid)
  exact hwf2.1 _ hm

lemma getOrCreate_cases (st : ManagerState) (now : Int) (sid : String)
    (hwf : WfMgr st) :
    ((getOrCreate st now sid).1 = st.nextId
        ∧ (getOrCreate st now sid).2.nextId = st.nextId + 1)
  ∨ ((getOrCreate st now sid).1 < st.nextId
        ∧ (getOrCreate st now sid).2.nextId = st.nextId) := by
  cases hl : lookupEntry st.sessions sid with
  | none =>
      rw [getOrCreate_miss st now sid hl]
      exact Or.inl ⟨rfl, rfl⟩
  | some e =>
      by_cases hx : entryExpired st.ttl now e
      · rw [getOrCreate_expired st now sid e hl hx]
        exact Or.inl ⟨rfl, rfl⟩
      · rw [getOrCreate_hit st now sid e hl (by simpa using hx)]
        exact Or.inr ⟨hwf.1 e (mem_of_lookupEntry hl), rfl⟩

lemma removeSession_expired (st : ManagerState) (now : Int) (sid : String)
    (e : SessionEntry) (hl : lookupEntry st.sessions sid = some e)
    (hx : entryExpired st.ttl now e = true) :
    removeSession st now sid = st := by
  rw [removeSession, hl]
  simp [hx]

lemma removeSession_live (st : ManagerState) (now : Int) (sid : String)
    (e : SessionEntry) (hl : lookupEntry st.sessions sid = some e)
    (hx : entryExpired st.ttl now e = false) :
    removeSession st now sid = { st with sessions := eraseSid st.sessions sid } := by
  rw [removeSession, hl]
  simp [hx]

lemma removeSession_absent (st : ManagerState) (now : Int) (sid : String)
    (hl : lookupEntry st.sessions sid = none) :
    removeSession st now sid = st := by
  rw [removeSession, hl]

/-- C2: registry identity.  (i) Two get_or_create calls with the same
session id return the same agent object as long as the entry has not
expired in between (always, when ttl is not positive), and the second
call refreshes the entry's last-access time to the time of the second
call.  (ii) Calls with different ids return different agent objects.
(iii) remove followed by get_or_create with the same id returns a new
agent object distinct from the removed one (with a monotonic clock). -/
theorem registry_identity :
    (∀ (st : ManagerState) (now1 now2 : Int) (sid : String),
        st.ttl ≤ 0 ∨ now2 - now1 < st.ttl →
          (getOrCreate (getOrCreate st now1 sid).2 now2 sid).1
              = (getOrCreate st now1 sid).1
          ∧ lookupEntry
              (getOrCreate (getOrCreate st now1 sid).2 now2 sid).2.sessions sid
              = some ⟨sid, (getOrCreate st now1 sid).1, now2⟩)
  ∧ (∀ (st : ManagerState) (now1 now2 : Int) (sid1 sid2 : String),
        WfMgr st → sid1 ≠ sid2 →
          (getOrCreate (getOrCreate st now1 sid1).2 now2 sid2).1
            ≠ (getOrCreate st now1 sid1).1)
  ∧ (∀ (st : ManagerState) (now1 now2 now3 : Int) (sid : String),
        WfMgr st → now2 ≤ now3 →
          (getOrCreate (removeSession (getOrCreate st now1 sid).2 now2 sid)
              now3 sid).1
            ≠ (getOrCreate st now1 sid).1) := by
  refine ⟨?_, ?_, ?_⟩
  · intro st now1 now2 sid h
    have hl1 := lookup_getOrCreate st now1 sid
    have httl := getOrCreate_ttl st now1 sid
    have hx : entryExpired (getOrCreate st now1 sid).2.ttl now2
        ⟨sid, (getOrCreate st now1 sid).1, now1⟩ = false := by
      rw [httl]
      exact entryExpired_false_of st.ttl now2 now1 sid _ h
    constructor
    · rw [getOrCreate_hit _ now2 sid _ hl1 hx]
    · rw [getOrCreate_hit _ now2 sid _ hl1 hx]
      exact lookup_setEntry _ now2 sid _
  · intro st now1 now2 sid1 sid2 hwf hne
    have hwf1 := wf_getOrCreate st now1 sid1 hwf
    have ha1lt := getOrCreate_fst_lt st now1 sid1 hwf
    have hl1 := lookup_getOrCreate st now1 sid1
    cases hl2 : lookupEntry (getOrCreate st now1 sid1).2.sessions sid2 with
    | none =>
        rw [getOrCreate_miss _ now2 sid2 hl2]
        show (getOrCreate st now1 sid1).2.nextId ≠ (getOrCreate st now1 sid1).1
        omega
    | some e2 =>
        by_cases hx2 : entryExpired (getOrCreate st now1 sid1).2.ttl now2 e2
        · rw [getOrCreate_expired _ now2 sid2 e2 hl2 hx2]
          show (getOrCreate st now1 sid1).2.nextId ≠ (getOrCreate st now1 sid1).1
          omega
        · rw [getOrCreate_hit _ now2 sid2 e2 hl2 (by simpa using hx2)]
          show e2.agentId ≠ (getOrCreate st now1 sid1).1
          intro heq
          have he2mem := mem_of_lookupEntry hl2
          have he1mem := mem_of_lookupEntry hl1
          have hxe : e2 = ⟨sid1, (getOrCreate st now1 sid1).1, now1⟩ :=
            List.inj_on_of_nodup_map hwf1.2 he2mem he1mem (by simpa using heq)
          have hs2 : e2.sid = sid2 := sid_of_lookupEntry hl2
          rw [hxe] at hs2
          exact hne hs2
  · intro st now1 now2 now3 sid hwf hle
    have hwf1 := wf_getOrCreate st now1 sid hwf
    have ha1lt := getOrCreate_fst_lt st now1 sid hwf
    have hl1 := lookup_getOrCreate st now1 sid
    by_cases hx : entryExpired (getOrCreate st now1 sid).2.ttl now2
        ⟨sid, (getOrCreate st now1 sid).1, now1⟩
    · rw [removeSession_expired _ now2 sid _ hl1 hx]
      have hx3 := entryExpired_mono _ now2 now3 _ hx hle
      rw [getOrCreate_expired _ now3 sid _ hl1 hx3]
      show (getOrCreate st now1 sid).2.nextId ≠ (getOrCreate st now1 sid).1
      omega
    · rw [removeSession_live _ now2 sid _ hl1 (by simpa using hx)]
      have hl2 : lookupEntry
          ({ (getOrCreate st now1 sid).2 with
              sessions := eraseSid (getOrCreate st now1 sid).2.sessions sid
            } : ManagerState).sessions sid = none :=
        lookup_eraseSid_self _ sid
      rw [getOrCreate_miss _ now3 sid hl2]
      show (getOrCreate st now1 sid).2.nextId ≠ (getOrCreate st now1 sid).1
      omega

/-- Witness for registry_identity: a concrete run on an initially empty
registry with a one-hour ttl: same-id lookup at a later time returns the
same agent and refreshes the timestamp; a different id gets a different
agent; remove-then-recreate yields a different agent. -/
theorem registry_identity_witness :
    ((getOrCreate (getOrCreate ⟨3600, [], 0⟩ 0 "a").2 10 "a").1
        = (getOrCreate ⟨3600, [], 0⟩ 0 "a").1
      ∧ lookupEntry
          (getOrCreate (getOrCreate ⟨3600, [], 0⟩ 0 "a").2 10 "a").2.sessions "a"
          = some ⟨"a", (getOrCreate ⟨3600, [], 0⟩ 0 "a").1, 10⟩)
    ∧ (getOrCreate (getOrCreate ⟨3600, [], 0⟩ 0 "a").2 10 "b").1
        ≠ (getOrCreate ⟨3600, [], 0⟩ 0 "a").1
    ∧ (getOrCreate (removeSession (getOrCreate ⟨3600, [], 0⟩ 0 "a").2 10 "a")
          20 "a").1
        ≠ (getOrCreate ⟨3600, [], 0⟩ 0 "a").1 :=
  ⟨registry_identity.1 ⟨3600, [], 0⟩ 0 10 "a" (by decide),
   registry_identity.2.1 ⟨3600, [], 0⟩ 0 10 "a" "b"
     ⟨by simp, by simp⟩ (by decide),
   registry_identity.2.2 ⟨3600, [], 0⟩ 0 10 20 "a"
     ⟨by simp, by simp⟩ (by decide)⟩

/-- Counterexample to C3 as stated: create a session (agent 0) and then
remove it with its id present.  The entry is gone from the registry, but
the removed agent's STT and TTS connections are not closed — remove only
pops the map entry and never calls VoiceAgent.aclose. -/
theorem remove_leaves_connections_open :
    (getOrCreateWorld ⟨⟨3600, [], 0⟩, [], []⟩ 0 "s").1 = 0
    ∧ lookupEntry
        (removeWorld (getOrCreateWorld ⟨⟨3600, [], 0⟩, [], []⟩ 0 "s").2
            1 "s").mgr.sessions "s" = none
    ∧ 0 ∉ (removeWorld (getOrCreateWorld ⟨⟨3600, [], 0⟩, [], []⟩ 0 "s").2
            1 "s").sttClosed
    ∧ 0 ∉ (removeWorld (getOrCreateWorld ⟨⟨3600, [], 0⟩, [], []⟩ 0 "s").2
            1 "s").ttsClosed := by
  refine ⟨by decide, by decide, by decide, by decide⟩

lemma removeSession_idem (st : ManagerState) (now : Int) (sid : String) :
    removeSession (removeSession st now sid) now sid
      = removeSession st now sid := by
  cases hl : lookupEntry st.sessions sid with
  | none =>
      rw [removeSession_absent st now sid hl, removeSession_absent st now sid hl]
  | some e =>
      by_cases hx : entryExpired st.ttl now e
      · rw [removeSession_expired st now sid e hl hx,
            removeSession_expired st now sid e hl hx]
      · rw [removeSession_live st now sid e hl (by simpa using hx)]
        exact removeSession_absent _ now sid (lookup_eraseSid_self _ sid)

/-- C3 (amended): remove is idempotent — removing an absent id is a
no-op that raises no error, and removing twice equals removing once; a
present, non-expired id is removed from the registry; but remove itself
releases no resources: it never closes the removed session's STT or TTS
connections (VoiceAgent.aclose is not called by remove). -/
theorem remove_idempotent_no_close :
    (∀ (w : RegistryWorld) (now : Int) (sid : String),
        lookupEntry w.mgr.sessions sid = none → removeWorld w now sid = w)
  ∧ (∀ (w : RegistryWorld) (now : Int) (sid : String),
        removeWorld (removeWorld w now sid) now sid = removeWorld w now sid)
  ∧ (∀ (w : RegistryWorld) (now : Int) (sid : String),
        (removeWorld w now sid).sttClosed = w.sttClosed
        ∧ (removeWorld w now sid).ttsClosed = w.ttsClosed)
  ∧ (∀ (w : RegistryWorld) (now : Int) (sid : String) (e : SessionEntry),
        lookupEntry w.mgr.sessions sid = some e →
        entryExpired w.mgr.ttl now e = false →
        lookupEntry (removeWorld w now sid).mgr.sessions sid = none) := by
  refine ⟨?_, ?_, ?_, ?_⟩
  · intro w now sid h
    show ({ w with mgr := removeSession w.mgr now sid } : RegistryWorld) = w
    rw [removeSession_absent w.mgr now sid h]
  · intro w now sid
    show ({ w with mgr := removeSession (removeSession w.mgr now sid) now sid }
          : RegistryWorld)
        = { w with mgr := removeSession w.mgr now sid }
    rw [removeSession_idem]
  · intro w now sid
    exact ⟨rfl, rfl⟩
  · intro w now sid e hl hx
    show lookupEntry (removeSession w.mgr now sid).sessions sid = none
    rw [removeSession_live w.mgr now sid e hl hx]
    exact lookup_eraseSid_self _ sid

/-- Witness for remove_idempotent_no_close on a concrete world: removing
an absent id is the identity; double removal of a present id equals a
single removal; closed sets are untouched; and the present id is gone
after removal. -/
theorem remove_idempotent_no_close_witness :
    (removeWorld ⟨⟨3600, [⟨"a", 0, 0⟩], 1⟩, [], []⟩ 1 "b"
        = ⟨⟨3600, [⟨"a", 0, 0⟩], 1⟩, [], []⟩)
    ∧ (removeWorld (removeWorld ⟨⟨3600, [⟨"a", 0, 0⟩], 1⟩, [], []⟩ 1 "a") 1 "a"
        = removeWorld ⟨⟨3600, [⟨"a", 0, 0⟩], 1⟩, [], []⟩ 1 "a")
    ∧ ((removeWorld ⟨⟨3600, [⟨"a", 0, 0⟩], 1⟩, [], []⟩ 1 "a").sttClosed
          = ([] : List Nat)
       ∧ (removeWorld ⟨⟨3600, [⟨"a", 0, 0⟩], 1⟩, [], []⟩ 1 "a").ttsClosed
          = ([] : List Nat))
    ∧ lookupEntry
        (removeWorld ⟨⟨3600, [⟨"a", 0, 0⟩], 1⟩, [], []⟩ 1 "a").mgr.sessions "a"
        = none :=
  ⟨remove_idempotent_no_close.1 _ 1 "b" (by decide),
   remove_idempotent_no_close.2.1 _ 1 "a",
   remove_idempotent_no_close.2.2.1 _ 1 "a",
   remove_idempotent_no_close.2.2.2 _ 1 "a" ⟨"a", 0, 0⟩ (by decide) (by decide)⟩

/-- C4 (close_all, modelled from the spec since aclose_all is called by
the FastAPI lifespan shutdown hook but absent from manager.py): the
close-all operation empties the registry and closes every session's STT
and TTS resources best-effort — for every stored session whose own close
does not fail, its resources are closed regardless of which other
sessions' closes fail. -/
theorem close_all_best_effort :
    (∀ (w : RegistryWorld) (fails : Nat → Bool),
        (acloseAllWorld w fails).mgr.sessions = [])
  ∧ (∀ (w : RegistryWorld) (fails : Nat → Bool) (e : SessionEntry),
        e ∈ w.mgr.sessions → fails e.agentId = false →
          e.agentId ∈ (acloseAllWorld w fails).sttClosed
          ∧ e.agentId ∈ (acloseAllWorld w fails).ttsClosed) := by
  refine ⟨fun w fails => rfl, ?_⟩
  intro w fails e he hf
  constructor <;>
    exact List.mem_append_right _
      (List.mem_filter.2 ⟨List.mem_map_of_mem _ he, by simp [hf]⟩)

/-- Witness for close_all_best_effort: two sessions, the first one's
close fails, the second is still closed and the registry is emptied. -/
theorem close_all_best_effort_witness :
    (acloseAllWorld ⟨⟨3600, [⟨"a", 0, 0⟩, ⟨"b", 1, 0⟩], 2⟩, [], []⟩
        (fun a => a == 0)).mgr.sessions = []
    ∧ ((1 : Nat) ∈ (acloseAllWorld ⟨⟨3600, [⟨"a", 0, 0⟩, ⟨"b", 1, 0⟩], 2⟩, [], []⟩
          (fun a => a == 0)).sttClosed
       ∧ (1 : Nat) ∈ (acloseAllWorld ⟨⟨3600, [⟨"a", 0, 0⟩, ⟨"b", 1, 0⟩], 2⟩, [], []⟩
          (fun a => a == 0)).ttsClosed) :=
  ⟨close_all_best_effort.1 _ _,
   close_all_best_effort.2 _ (fun a => a == 0) ⟨"b", 1, 0⟩ (by decide) (by decide)⟩

/-- Counterexample to C5 as stated: at the exact boundary now minus
last_access equal to ttl the cache already treats the entry as expired,
although now - last_access is not strictly greater than ttl.  With ttl 5
and a session set at time 0, at time 5 active_sessions evicts and counts
zero, and get_or_create constructs a fresh agent instead of returning
the stored agent 0 — yet 5 - 0 is not greater than 5. -/
theorem ttl_boundary_counterexample :
    (activeSessions ⟨5, [⟨"s", 0, 0⟩], 1⟩ 5).1 = 0
    ∧ ¬((5 : Int) - 0 > 5)
    ∧ (getOrCreate ⟨5, [⟨"s", 0, 0⟩], 1⟩ 5 "s").1 ≠ 0 := by
  refine ⟨by decide, by decide, by decide⟩

/-- C5 (amended): a stored session is expired exactly when ttl is
positive and now - last_access is at least ttl (not strictly greater);
with ttl not positive sessions never expire; active_sessions lazily
evicts exactly the expired entries as a side effect and returns the
number of non-expired sessions, leaving the surviving entries — and in
particular their last-access timestamps — untouched; and for a stored
entry, get_or_create returns the stored agent exactly when the entry is
not expired in that sense. -/
theorem ttl_expiry_behaviour :
    (∀ (st : ManagerState) (now : Int),
        (activeSessions st now).2.sessions
          = st.sessions.filter (fun e => !entryExpired st.ttl now e)
        ∧ (activeSessions st now).1
          = (st.sessions.filter (fun e => !entryExpired st.ttl now e)).length)
  ∧ (∀ (ttl now last : Int) (sid : String) (aid : Nat),
        entryExpired ttl now ⟨sid, aid, last⟩ = true
          ↔ (0 < ttl ∧ ttl ≤ now - last))
  ∧ (∀ (st : ManagerState) (now : Int), st.ttl ≤ 0 →
        activeSessions st now = (st.sessions.length, st))
  ∧ (∀ (st : ManagerState) (now : Int) (sid : String) (e : SessionEntry),
        WfMgr st → lookupEntry st.sessions sid = some e →
          ((getOrCreate st now sid).1 = e.agentId
            ↔ ¬(0 < st.ttl ∧ st.ttl ≤ now - e.lastAccess))) := by
  refine ⟨fun st now => ⟨rfl, rfl⟩, ?_, ?_, ?_⟩
  · intro ttl now last sid aid
    simp [entryExpired, Bool.and_eq_true, decide_eq_true_eq]
  · intro st now h
    have hall : st.sessions.filter (fun e => !entryExpired st.ttl now e)
        = st.sessions := by
      rw [List.filter_eq_self]
      intro e he
      have h0 : decide (0 < st.ttl) = false := by
        simpa using (by omega : ¬ 0 < st.ttl)
      simp [entryExpired, h0]
    have h1 : expireSessions st now = st := by
      show ({ st with
          sessions := st.sessions.filter (fun e => !entryExpired st.ttl now e) }
            : ManagerState) = st
      rw [hall]
    show ((expireSessions st now).sessions.length, expireSessions st now)
        = (st.sessions.length, st)
    rw [h1]
  · intro st now sid e hwf hl
    by_cases hx : entryExpired st.ttl now e = true
    · rw [getOrCreate_expired st now sid e hl hx]
      have hprops : 0 < st.ttl ∧ st.ttl ≤ now - e.lastAccess := by
        simpa [entryExpired, Bool.and_eq_true, decide_eq_true_eq] using hx
      have hlt := hwf.1 e (mem_of_lookupEntry hl)
      show st.nextId = e.agentId ↔ ¬(0 < st.ttl ∧ st.ttl ≤ now - e.lastAccess)
      constructor
      · intro heq
        omega
      · intro hni
        exact absurd hprops hni
    · rw [getOrCreate_hit st now sid e hl (by simpa using hx)]
      have hprops : ¬(0 < st.ttl ∧ st.ttl ≤ now - e.lastAccess) := by
        intro hp
        exact hx (by simpa [entryExpired, Bool.and_eq_true, decide_eq_true_eq]
          using hp)
      show e.agentId = e.agentId ↔ ¬(0 < st.ttl ∧ st.ttl ≤ now - e.lastAccess)
      simp [hprops]

/-- Witness for ttl_expiry_behaviour on concrete registries: a live
entry survives an active_sessions check with its timestamp untouched; a
boundary entry is expired; ttl zero never expires an ancient entry; and
get_or_create at the boundary does not return the stored agent. -/
theorem ttl_expiry_behaviour_witness :
    ((activeSessions ⟨5, [⟨"s", 0, 0⟩], 1⟩ 3).2.sessions
        = [⟨"s", 0, 0⟩].filter (fun e => !entryExpired 5 3 e)
      ∧ (activeSessions ⟨5, [⟨"s", 0, 0⟩], 1⟩ 3).1
        = ([⟨"s", 0, 0⟩].filter (fun e => !entryExpired 5 3 e)).length)
    ∧ (entryExpired 5 5 ⟨"s", 0, 0⟩ = true ↔ ((0 : Int) < 5 ∧ (5 : Int) ≤ 5 - 0))
    ∧ activeSessions ⟨0, [⟨"old", 0, -100⟩], 1⟩ 5 = (1, ⟨0, [⟨"old", 0, -100⟩], 1⟩)
    ∧ ((getOrCreate ⟨5, [⟨"s", 0, 0⟩], 1⟩ 5 "s").1 = 0
          ↔ ¬((0 : Int) < 5 ∧ (5 : Int) ≤ 5 - 0)) :=
  ⟨ttl_expiry_behaviour.1 ⟨5, [⟨"s", 0, 0⟩], 1⟩ 3,
   ttl_expiry_behaviour.2.1 5 5 0 "s" 0,
   ttl_expiry_behaviour.2.2.1 ⟨0, [⟨"old", 0, -100⟩], 1⟩ 5 (by decide),
   ttl_expiry_behaviour.2.2.2 ⟨5, [⟨"s", 0, 0⟩], 1⟩ 5 "s" ⟨"s", 0, 0⟩
     ⟨by decide, by decide⟩ (by decide)⟩
